import Mathlib

/-!
Shallow embedding of the chord-progression engine
(`src/createChordProgression.js`) and proofs about its specification.

The JavaScript source is translated function by function:

* JS objects used as lookup tables become association lists with
  `List.lookup`;
* JS `throw` becomes `Except Err`;
* JS numbers (always integers here) become `Int`; the JS remainder
  operator `%` is truncated remainder, i.e. `Int.tmod`, and
  `Math.floor(a / b)` is floor division, i.e. `Int.fdiv`;
* the MIDI serialisation (midi-writer-js) is an external collaborator:
  the embedded entry point returns the list of chords (each a list of
  pitch strings such as "C4") that the source hands to the serializer,
  one `NoteEvent` per chord, instead of the opaque byte buffer.
-/

/-- Error kinds thrown by the engine.  Each constructor corresponds to one
`throw new Error(...)` site in the source, carrying the interpolated datum:
`invalidKeyFormat` to "Invalid key format: ...", `invalidRootNote` to
"Invalid root note: ...", `invalidChordCount` to "numChords must be between
2 and 6, got ...", and `invalidNoteName` to "Invalid note name: ..." (the
one raised by `noteToMidi`). -/
inductive Err where
  | invalidKeyFormat (key : String)
  | invalidRootNote (root : String)
  | invalidChordCount (n : Int)
  | invalidNoteName (name : String)
deriving DecidableEq, Repr

deriving instance DecidableEq for Except

/-- The `NOTE_TO_MIDI` object literal (source lines 6-10): note names to
MIDI numbers, C4 = 60. -/
def noteTable : List (String × Int) :=
  [("C", 60), ("C#", 61), ("Db", 61), ("D", 62), ("D#", 63), ("Eb", 63),
   ("E", 64), ("F", 65), ("F#", 66), ("Gb", 66), ("G", 67), ("G#", 68),
   ("Ab", 68), ("A", 69), ("A#", 70), ("Bb", 70), ("B", 71)]

/-- Property access `NOTE_TO_MIDI[name]`: `none` models JS `undefined`. -/
def NOTE_TO_MIDI (name : String) : Option Int :=
  noteTable.lookup name

/-- The note names accepted by the pitch table (the keys of `NOTE_TO_MIDI`). -/
def noteNames : List String :=
  noteTable.map Prod.fst

/-- MAJOR_TRIAD (line 15): root, major third, perfect fifth. -/
def MAJOR_TRIAD : List Int := [0, 4, 7]

/-- MINOR_TRIAD (line 16): root, minor third, perfect fifth. -/
def MINOR_TRIAD : List Int := [0, 3, 7]

/-- MAJOR_SCALE (line 21): chromatic offsets of the major scale degrees. -/
def MAJOR_SCALE : List Int := [0, 2, 4, 5, 7, 9, 11]

/-- MINOR_SCALE (line 26): chromatic offsets of the natural minor scale. -/
def MINOR_SCALE : List Int := [0, 2, 3, 5, 7, 8, 10]

/-- The `midiToNote` object literal (lines 101-104 and again 161-164):
pitch class 0-11 to canonical sharp-spelled note name. -/
def midiNoteTable : List (Int × String) :=
  [(0, "C"), (1, "C#"), (2, "D"), (3, "D#"), (4, "E"), (5, "F"),
   (6, "F#"), (7, "G"), (8, "G#"), (9, "A"), (10, "A#"), (11, "B")]

/-- Property access `midiToNote[n]`. -/
def midiToNote (n : Int) : Option String :=
  midiNoteTable.lookup n

/-- The `keyPrefs` object literal (lines 110-124): per-root preferred
spellings of the seven scale degrees. -/
def keyPrefsTable : List (String × List String) :=
  [("C",  ["C", "D", "E", "F", "G", "A", "B"]),
   ("Db", ["Db", "Eb", "F", "Gb", "Ab", "Bb", "C"]),
   ("D",  ["D", "E", "F#", "G", "A", "B", "C#"]),
   ("Eb", ["Eb", "F", "G", "Ab", "Bb", "C", "D"]),
   ("E",  ["E", "F#", "G#", "A", "B", "C#", "D#"]),
   ("F",  ["F", "G", "A", "Bb", "C", "D", "E"]),
   ("F#", ["F#", "G#", "A#", "B", "C#", "D#", "E#"]),
   ("Gb", ["Gb", "Ab", "Bb", "Cb", "Db", "Eb", "F"]),
   ("G",  ["G", "A", "B", "C", "D", "E", "F#"]),
   ("Ab", ["Ab", "Bb", "C", "Db", "Eb", "F", "G"]),
   ("A",  ["A", "B", "C#", "D", "E", "F#", "G#"]),
   ("Bb", ["Bb", "C", "D", "Eb", "F", "G", "A"]),
   ("B",  ["B", "C#", "D#", "E", "F#", "G#", "A#"])]

/-- Optional chaining `keyPrefs[root]?.` on the spelling table. -/
def keyPrefs (root : String) : Option (List String) :=
  keyPrefsTable.lookup root

/-- Whitespace test used by the embedding of `String.prototype.trim`
(the source only ever receives ASCII input). -/
def isJsSpace (c : Char) : Bool :=
  c = ' ' || c = '\t' || c = '\n' || c = '\r'

/-- JS `s.trim()`: remove whitespace from both ends. -/
def jsTrim (s : String) : String :=
  String.mk (((s.toList.dropWhile isJsSpace).reverse.dropWhile isJsSpace).reverse)

/-- JS `s.toLowerCase()` (ASCII). -/
def jsToLower (s : String) : String :=
  String.mk (s.toList.map Char.toLower)

/-- Does `hay` start with the characters `pat`?  Auxiliary for the
embedding of `String.prototype.includes`. -/
def charsBeginWith : List Char → List Char → Bool
  | [], _ => true
  | _ :: _, [] => false
  | p :: ps, h :: hs => p == h && charsBeginWith ps hs

/-- Does `pat` occur as a contiguous substring of `hay`? -/
def charsOccurIn (pat : List Char) : List Char → Bool
  | [] => charsBeginWith pat []
  | h :: hs => charsBeginWith pat (h :: hs) || charsOccurIn pat hs

/-- JS `hay.includes(pat)`. -/
def jsIncludes (hay pat : String) : Bool :=
  charsOccurIn pat.toList hay.toList

/-- Does `l` start with the pattern `pat` when compared case-insensitively
(`pat` is given in lowercase)?  Auxiliary for the regex embedding. -/
def lcBeginsWith : List Char → List Char → Bool
  | [], _ => true
  | _ :: _, [] => false
  | p :: ps, h :: hs => p == h.toLower && lcBeginsWith ps hs

/-- The global regex replace `.replace(/minor|min|major|maj|m|M/gi, '')`
(line 43), on character lists.  The regex engine scans left to right; at
each position it tries the alternatives in the written order and, on a
match, resumes after the matched text.  Every step consumes at least one
character, so running the scan on structurally decreasing fuel that
starts at the list length computes the replacement exactly (the
out-of-fuel case is unreachable: fuel never drops below the number of
characters left). -/
def stripModeTokensFuel : Nat → List Char → List Char
  | 0, l => l
  | _ + 1, [] => []
  | fuel + 1, c :: rest =>
    if lcBeginsWith ['m', 'i', 'n', 'o', 'r'] (c :: rest) then
      stripModeTokensFuel fuel (rest.drop 4)
    else if lcBeginsWith ['m', 'i', 'n'] (c :: rest) then
      stripModeTokensFuel fuel (rest.drop 2)
    else if lcBeginsWith ['m', 'a', 'j', 'o', 'r'] (c :: rest) then
      stripModeTokensFuel fuel (rest.drop 4)
    else if lcBeginsWith ['m', 'a', 'j'] (c :: rest) then
      stripModeTokensFuel fuel (rest.drop 2)
    else if c.toLower == 'm' then
      stripModeTokensFuel fuel rest
    else
      c :: stripModeTokensFuel fuel rest

/-- The regex replacement of line 43 on a whole character list. -/
def stripModeTokens (l : List Char) : List Char :=
  stripModeTokensFuel l.length l

/-- JS capitalisation `root.charAt(0).toUpperCase() + root.slice(1)`. -/
def capitalizeFirst (s : String) : String :=
  match s.toList with
  | [] => ""
  | c :: rest => String.mk (c.toUpper :: rest)

/-- Is the character a note letter for the class `[A-G]` under the `i`
flag? -/
def isNoteLetter (c : Char) : Bool :=
  'a' ≤ c.toLower && c.toLower ≤ 'g'

/-- Is the character in the class `[#b]` under the `i` flag?  (The flag
makes the class also match uppercase B.) -/
def isAccidentalChar (c : Char) : Bool :=
  c = '#' || c = 'b' || c = 'B'

/-- The anchored match `normalized.match(/^([A-G][#b]?)(m|M)?$/i)`
(line 49): returns the first capture group and whether the optional
trailing m/M group was present. -/
def matchCompactNote (s : String) : Option (String × Bool) :=
  match s.toList with
  | [] => none
  | c :: rest =>
    if isNoteLetter c then
      match rest with
      | [] => some (String.mk [c], false)
      | [x] =>
        if isAccidentalChar x then some (String.mk [c, x], false)
        else if x.toLower = 'm' then some (String.mk [c], true)
        else none
      | [x, y] =>
        if isAccidentalChar x && y.toLower = 'm' then some (String.mk [c, x], true)
        else none
      | _ => none
    else none

/-- The `parseKey` function (lines 32-67).  Returns the root note name and
the minor flag, or `none` (JS `null`) when no root can be extracted.

Note that the minor check `minorIndicators.some(...)` (lines 36-39) tests
whether the lowercased input CONTAINS "minor", "min" or "m" anywhere, so
any input containing the letter m — including the word "major" — sets the
minor flag. -/
def parseKey (keyString : String) : Option (String × Bool) :=
  let normalized := jsTrim keyString
  let isMinor :=
    jsIncludes (jsToLower normalized) "minor" ||
    jsIncludes (jsToLower normalized) "min" ||
    jsIncludes (jsToLower normalized) "m"
  let root := jsTrim (String.mk (stripModeTokens normalized.toList))
  if root.isEmpty then
    match matchCompactNote normalized with
    | some (r, hasM) =>
      let cap := capitalizeFirst r
      if hasM then some (cap, true) else some (cap, false)
    | none => none
  else
    some (capitalizeFirst root, isMinor)

/-- The `noteToMidi` function (lines 72-78).  The source's `octave`
parameter defaults to 4; the embedding passes it explicitly. -/
def noteToMidi (noteName : String) (octave : Int) : Except Err Int :=
  match NOTE_TO_MIDI noteName with
  | none => .error (.invalidNoteName noteName)
  | some baseNote => .ok (baseNote + (octave - 4) * 12)

/-- The scale-index computation `((degree - 1) % 7 + 7) % 7` (line 92),
with JS `%` embedded as truncated remainder. -/
def degreeIndex (degree : Int) : Int :=
  ((degree - 1).tmod 7 + 7).tmod 7

/-- The `getScaleDegreeNote` function (lines 83-128): spelled note name of
a scale degree in the key `(root, isMinor)`.  Array indexing that the
source leaves unchecked is embedded with `List.getD` / `List.get?`; the
`degreeIndex` bound proved below shows the defaults are never taken for
the scale itself, and `keyPrefs[root]?.[degreeIndex]` already produces JS
`undefined` (here `none`) when out of range. -/
def getScaleDegreeNote (root : String) (degree : Int) (isMinor : Bool) :
    Except Err String :=
  let scale := if isMinor then MINOR_SCALE else MAJOR_SCALE
  match NOTE_TO_MIDI root with
  | none => .error (.invalidRootNote root)
  | some rootMidi =>
    let chromaticOffset := scale.getD (degreeIndex degree).toNat 0
    let midiNote := rootMidi + chromaticOffset
    let noteInOctave := midiNote.tmod 12
    let noteName := (midiToNote noteInOctave).getD "undefined"
    let preferred := (keyPrefs root).bind fun prefs =>
      prefs.get? (degreeIndex degree).toNat
    .ok (preferred.getD noteName)

/-- The display conversion in the body of the `intervals.forEach` loop of
`getChordNotes` (lines 156-167): a MIDI number to "name + octave", e.g.
60 to "C4".  `Math.floor(noteMidi / 12) - 1` is floor division. -/
def displayNote (noteMidi : Int) : String :=
  let octaveNum := noteMidi.fdiv 12 - 1
  let noteInOctave := noteMidi.tmod 12
  ((midiToNote noteInOctave).getD "undefined") ++ toString octaveNum

/-- The `getChordNotes` function (lines 133-171): the three pitch strings
of the diatonic triad on `degree`.  The source's `octave` parameter
defaults to 4; the embedding passes it explicitly. -/
def getChordNotes (root : String) (degree : Int) (isMinor : Bool)
    (octave : Int) : Except Err (List String) :=
  match getScaleDegreeNote root degree isMinor with
  | .error e => .error e
  | .ok chordRoot =>
    let isChordMinor :=
      if isMinor then ([1, 4, 5] : List Int).contains degree
      else ([2, 3, 6] : List Int).contains degree
    let intervals := if isChordMinor then MINOR_TRIAD else MAJOR_TRIAD
    match noteToMidi chordRoot octave with
    | .error e => .error e
    | .ok rootMidi =>
      .ok (intervals.map fun interval => displayNote (rootMidi + interval))

/-- The `patterns` object literal of `getProgressionDegrees`
(lines 179-185). -/
def progressionPatterns : List (Int × List Int) :=
  [(2, [1, 5]), (3, [1, 4, 5]), (4, [1, 4, 5, 1]),
   (5, [1, 6, 4, 5, 1]), (6, [1, 6, 4, 5, 1, 4])]

/-- The `getProgressionDegrees` function (lines 178-192). -/
def getProgressionDegrees (numChords : Int) : Except Err (List Int) :=
  if numChords < 2 || numChords > 6 then
    .error (.invalidChordCount numChords)
  else
    .ok ((progressionPatterns.lookup numChords).getD [])

/-- The `progression.forEach` loop of `createChordProgression`
(lines 228-240): build one chord per degree, a thrown error aborting the
whole computation. -/
def buildChords (root : String) (isMinor : Bool) :
    List Int → Except Err (List (List String))
  | [] => .ok []
  | d :: rest =>
    match getChordNotes root d isMinor 4 with
    | .error e => .error e
    | .ok c =>
      match buildChords root isMinor rest with
      | .error e => .error e
      | .ok cs => .ok (c :: cs)

/-- The exported `createChordProgression` function (lines 202-248),
returning the list of chords handed to the MIDI writer (the serialisation
itself is an external collaborator).  The root truthiness test
`!NOTE_TO_MIDI[root]` is an undefined test: every table value is >= 60,
so no falsy 0 can occur.  The source's `numChords` parameter defaults
to 4; the embedding passes it explicitly. -/
def createChordProgression (key : String) (numChords : Int) :
    Except Err (List (List String)) :=
  match parseKey key with
  | none => .error (.invalidKeyFormat key)
  | some (root, isMinor) =>
    if (NOTE_TO_MIDI root).isNone then .error (.invalidRootNote root)
    else if numChords < 2 || numChords > 6 then
      .error (.invalidChordCount numChords)
    else
      match getProgressionDegrees numChords with
      | .error e => .error e
      | .ok progression => buildChords root isMinor progression

/-- The seven scale degrees, as the integer values the progression
templates draw from. -/
def scaleDegrees : List Int := [1, 2, 3, 4, 5, 6, 7]

/-- Chromatic offset of a scale degree in the given mode, exactly as
`getScaleDegreeNote` computes it (`scale[degreeIndex]`, line 93). -/
def scaleOffset (isMinor : Bool) (degree : Int) : Int :=
  (if isMinor then MINOR_SCALE else MAJOR_SCALE).getD (degreeIndex degree).toNat 0

/-- Round-trip property of one scale-engine output (the property claimed
for the Scale Engine): the spelled name of the degree has an entry in the
pitch table and that entry has the same pitch class, modulo 12, as the
canonically computed `root + offset`. -/
def roundTripOk (root : String) (isMinor : Bool) (degree : Int) : Bool :=
  match getScaleDegreeNote root degree isMinor, NOTE_TO_MIDI root with
  | .ok name, some rootMidi =>
    match NOTE_TO_MIDI name with
    | some v => v.tmod 12 == (rootMidi + scaleOffset isMinor degree).tmod 12
    | none => false
  | _, _ => false

/-- Absolute pitch of the chord root at octave 4: the `rootMidi` value of
`getChordNotes` (line 154), exposed as its own definition so theorems can
speak about the pitches behind the returned strings. -/
def chordRootMidi (root : String) (degree : Int) (isMinor : Bool) :
    Except Err Int :=
  match getScaleDegreeNote root degree isMinor with
  | .error e => .error e
  | .ok chordRoot => noteToMidi chordRoot 4

/-- The chord-root pitch with a default of 0 when the computation fails
(the default is irrelevant: it is only read under an `isOk` hypothesis). -/
def chordRootPitch (root : String) (degree : Int) (isMinor : Bool) : Int :=
  match chordRootMidi root degree isMinor with
  | .ok v => v
  | .error _ => 0

/-- Minor-quality test of `getChordNotes` (lines 140-147): in minor keys
degrees 1, 4, 5, in major keys degrees 2, 3, 6. -/
def isChordMinorAt (isMinor : Bool) (degree : Int) : Bool :=
  if isMinor then ([1, 4, 5] : List Int).contains degree
  else ([2, 3, 6] : List Int).contains degree

/-- Exceptions that occur in the round-trip characterization: the two
spelled names ("Cb" for the 4th degree of Gb, "E#" for the 7th of F#)
that are absent from the pitch table, and the minor-mode degrees 3, 6, 7
of every root with a spelling-preference row, where the major-table
spelling is a semitone away from the natural-minor offset. -/
def roundTripBad (root : String) (isMinor : Bool) (degree : Int) : Bool :=
  (root == "Gb" && degree == 4) || (root == "F#" && degree == 7) ||
  (isMinor && (keyPrefs root).isSome &&
    (degree == 3 || degree == 6 || degree == 7))

/-- Truncated remainder danced through `(x % 7 + 7) % 7` equals the
Euclidean remainder: the bridge between the JS idiom on line 92 and
`omega`-friendly arithmetic. -/
lemma tmod_dance_seven (a : Int) : (a.tmod 7 + 7).tmod 7 = a % 7 := by
  rcases a with n | n
  · have h1 : (Int.ofNat n).tmod 7 = Int.ofNat (n % 7) := rfl
    rw [h1]
    simp only [Int.ofNat_eq_coe]
    rw [Int.tmod_eq_emod (by omega) (by omega)]
    omega
  · have h1 : (Int.negSucc n).tmod 7 = -Int.ofNat ((n + 1) % 7) := rfl
    rw [h1]
    simp only [Int.ofNat_eq_coe]
    rw [Int.tmod_eq_emod (by omega) (by omega)]
    rw [Int.negSucc_eq]
    omega

/-- The scale index of line 92 is the mathematical `(degree - 1) mod 7`. -/
lemma degreeIndex_eq_emod (d : Int) : degreeIndex d = (d - 1) % 7 := by
  unfold degreeIndex
  exact tmod_dance_seven (d - 1)

/-- The scale index always lies in `0..6`. -/
lemma degreeIndex_bounds (d : Int) : 0 ≤ degreeIndex d ∧ degreeIndex d < 7 := by
  rw [degreeIndex_eq_emod]
  omega

/-- The scale index is 7-periodic in the degree. -/
lemma degreeIndex_add_seven (d : Int) : degreeIndex (d + 7) = degreeIndex d := by
  rw [degreeIndex_eq_emod, degreeIndex_eq_emod]
  omega

/-- A successful association-list lookup returns one of the stored
values. -/
lemma lookup_mem_values {α β : Type} [BEq α] (l : List (α × β)) (k : α)
    (v : β) (h : l.lookup k = some v) : v ∈ l.map Prod.snd := by
  induction l with
  | nil => simp [List.lookup] at h
  | cons p t ih =>
    obtain ⟨pk, pv⟩ := p
    by_cases hbeq : (k == pk) = true
    · simp only [List.lookup, hbeq] at h
      simp only [List.map, List.mem_cons]
      exact Or.inl (Option.some_injective _ h).symm
    · rw [Bool.not_eq_true] at hbeq
      simp only [List.lookup, hbeq] at h
      simp only [List.map, List.mem_cons]
      exact Or.inr (ih h)

/-- A key that occurs in an association list is found by lookup. -/
lemma lookup_isSome_of_mem_keys {α β : Type} [BEq α] [LawfulBEq α]
    (l : List (α × β)) (k : α) (h : k ∈ l.map Prod.fst) :
    (l.lookup k).isSome = true := by
  induction l with
  | nil => simp at h
  | cons p t ih =>
    obtain ⟨pk, pv⟩ := p
    by_cases hbeq : (k == pk) = true
    · simp [List.lookup, hbeq]
    · rw [Bool.not_eq_true] at hbeq
      simp only [List.map, List.mem_cons] at h
      rcases h with h | h
      · exact absurd (beq_iff_eq.mpr h) (by simp [hbeq])
      · simpa [List.lookup, hbeq] using ih h

/-- Every value stored in the pitch table lies between 60 and 71. -/
lemma NOTE_TO_MIDI_bounds (s : String) (v : Int)
    (h : NOTE_TO_MIDI s = some v) : 60 ≤ v ∧ v ≤ 71 := by
  have hmem := lookup_mem_values noteTable s v h
  have hall : ∀ x ∈ noteTable.map Prod.snd, 60 ≤ x ∧ x ≤ 71 := by decide
  exact hall v hmem

/-- C1: what the engine actually returns for the key string "C major" with
numChords = 4.  The claim says the input is treated as Major mode and the
chords are the major triads C(C4,E4,G4), F(F4,A4,C5), G(G4,B4,D5),
C(C4,E4,G4).  In the code, however, the minor detection of `parseKey`
(lines 36-39) tests whether the lowercased input contains the substring
"m" — and "c major" does, inside "major" — so the key is parsed as C
MINOR and the engine renders the degree sequence [1,4,5,1] as the minor
triads Cm(C4,D#4,G4), Fm(F4,G#4,C5), Gm(G4,A#4,D5), Cm(C4,D#4,G4),
contradicting the claim (and the source's own doc comments and README,
which present "C major" as a major key). -/
theorem createChordProgression_c_major_eval :
    createChordProgression "C major" 4 =
      .ok [["C4", "D#4", "G4"], ["F4", "G#4", "C5"],
           ["G4", "A#4", "D5"], ["C4", "D#4", "G4"]] := by
  decide

/-- C2: what `parseKey` actually returns for "C major".  The claim says an
explicit "major" indicator yields Major mode and Minor is signalled only
by "minor", "min" or a trailing bare "m"; the code instead tests
`normalized.toLowerCase().includes(indicator)` for the indicators
["minor", "min", "m"], and the last test succeeds on the "m" inside
"major", so `parseKey "C major"` reports the minor flag set. -/
theorem parseKey_c_major_eval :
    parseKey "C major" = some ("C", true) := by
  decide

/-- C4: the key string "Gb major" is accepted by the parser, its root "Gb"
is in the pitch table, and numChords = 4 is in range, yet
`createChordProgression` fails: the Gb row of `keyPrefs` spells the 4th
scale degree "Cb", a name with no `NOTE_TO_MIDI` entry, so `noteToMidi`
throws "Invalid note name: Cb" while building the degree-4 chord — an
error outside the three specified caller-input error kinds
(`invalidKeyFormat`, `invalidRootNote`, `invalidChordCount`). -/
theorem createChordProgression_gb_major_invalid_note_name :
    parseKey "Gb major" = some ("Gb", true) ∧
    NOTE_TO_MIDI "Gb" = some 66 ∧
    createChordProgression "Gb major" 4 = .error (.invalidNoteName "Cb") := by
  decide

/-- C8: for the key string "A minor" with numChords = 3 the engine returns
the degree sequence [1,4,5] rendered as the chords A-minor(A4,C5,E5),
D-minor(D4,F4,A4), E-minor(E4,G4,B4), exactly as claimed. -/
theorem createChordProgression_a_minor_eval :
    createChordProgression "A minor" 3 =
      .ok [["A4", "C5", "E5"], ["D4", "F4", "A4"], ["E4", "G4", "B4"]] := by
  decide

/-- C5 counterexample: the claim says the chord-count range is validated
before the key is parsed, so an empty key with numChords = 7 should fail
with the `invalidChordCount` error.  In the code (lines 202-219) the key
is parsed FIRST: the call fails with `invalidKeyFormat`, not
`invalidChordCount`. -/
theorem createChordProgression_empty_key_seven_eval :
    createChordProgression "" 7 = .error (.invalidKeyFormat "") ∧
    createChordProgression "" 7 ≠ .error (.invalidChordCount 7) := by
  decide

/-- C5 amended: the entry point parses the key before validating the
chord-count range — for every input whose key string fails to parse and
every numChords (in range or not), `createChordProgression` fails with
the `invalidKeyFormat` error. -/
theorem createChordProgression_key_parsed_first (key : String) (n : Int)
    (h : parseKey key = none) :
    createChordProgression key n = .error (.invalidKeyFormat key) := by
  unfold createChordProgression
  rw [h]

/-- C5 amended, witness: the empty key with numChords = 7. -/
theorem createChordProgression_key_parsed_first_witness :
    parseKey "" = none ∧
    createChordProgression "" 7 = .error (.invalidKeyFormat "") :=
  ⟨by decide, createChordProgression_key_parsed_first "" 7 (by decide)⟩

/-- C7: `getProgressionDegrees` fails with the chord-count error exactly
when the integer argument is outside [2,6], and on the in-range values it
returns the five fixed templates of lines 179-185. -/
theorem getProgressionDegrees_range_and_templates (n : Int) :
    (getProgressionDegrees n = .error (.invalidChordCount n) ↔
      (n < 2 ∨ n > 6)) ∧
    getProgressionDegrees 2 = .ok [1, 5] ∧
    getProgressionDegrees 3 = .ok [1, 4, 5] ∧
    getProgressionDegrees 4 = .ok [1, 4, 5, 1] ∧
    getProgressionDegrees 5 = .ok [1, 6, 4, 5, 1] ∧
    getProgressionDegrees 6 = .ok [1, 6, 4, 5, 1, 4] := by
  refine ⟨⟨fun h => ?_, fun h => ?_⟩, by decide, by decide, by decide, by decide, by decide⟩
  · by_contra hc
    push_neg at hc
    obtain ⟨h2, h6⟩ := hc
    interval_cases n <;> revert h <;> decide
  · unfold getProgressionDegrees
    rw [if_pos]
    simp only [Bool.or_eq_true, decide_eq_true_eq]
    exact h

/-- C7 witness: the range theorem applied at the out-of-range count 7 and
the in-range count 4. -/
theorem getProgressionDegrees_range_and_templates_witness :
    getProgressionDegrees 7 = .error (.invalidChordCount 7) ∧
    getProgressionDegrees 4 = .ok [1, 4, 5, 1] :=
  ⟨(getProgressionDegrees_range_and_templates 7).1.mpr (by omega),
   (getProgressionDegrees_range_and_templates 4).2.2.2.1⟩

/-- C3 counterexample: the round-trip property fails on the code.  For
the in-table root "Gb" in Major mode at degree 4, the Scale Engine
returns the spelled name "Cb" (the Gb row of `keyPrefs`), and "Cb" has no
entry in the pitch table at all, so the re-lookup required by the claim
is impossible. -/
theorem roundTrip_fails_on_gb_degree_four :
    "Gb" ∈ noteNames ∧
    getScaleDegreeNote "Gb" 4 false = .ok "Cb" ∧
    NOTE_TO_MIDI "Cb" = none ∧
    roundTripOk "Gb" false 4 = false := by
  decide

/-- C3 amended: full characterization of the round-trip property.  For
every root in the pitch table, both modes, and every degree 1..7, the
spelled name returned by `getScaleDegreeNote` re-looks-up in the pitch
table to the canonically computed pitch class EXCEPT in the cases listed
by `roundTripBad`: the spellings "Cb" (root Gb, degree 4) and "E#" (root
F#, degree 7) are absent from the pitch table in either mode, and in
Minor mode every root with a `keyPrefs` row gets major-table spellings on
degrees 3, 6 and 7, one semitone away from the natural-minor offset. -/
theorem roundTrip_characterization :
    ∀ root ∈ noteNames, ∀ (isMinor : Bool), ∀ degree ∈ scaleDegrees,
      roundTripOk root isMinor degree = !roundTripBad root isMinor degree := by
  decide

/-- C3 amended, witness: the characterization applied at root "C", Major
mode, degree 5 (a good case: the spelled name "G" maps back to pitch
class 7). -/
theorem roundTrip_characterization_witness :
    roundTripOk "C" false 5 = !roundTripBad "C" false 5 :=
  roundTrip_characterization "C" (by decide) false 5 (by decide)

/-- C6: diatonic quality rule with fixed intervals and order.  For every
root in the pitch table and every degree 1..7 on which `getChordNotes`
succeeds, the chord root's absolute pitch computation succeeds as well,
and the three returned notes are, in order [root, third, fifth], the
display strings of the pitches r, r+3, r+7 when the mode/degree pair is
minor-quality (Major mode with degree in {2,3,6}, Minor mode with degree
in {1,4,5}) and r, r+4, r+7 otherwise — the fifth is always +7 and the
third always +3 or +4, so no degree ever yields a diminished (+3/+6)
triad. -/
theorem getChordNotes_diatonic_quality :
    ∀ root ∈ noteNames, ∀ (isMinor : Bool), ∀ degree ∈ scaleDegrees,
      (getChordNotes root degree isMinor 4).isOk = true →
      ((chordRootMidi root degree isMinor).isOk = true ∧
        getChordNotes root degree isMinor 4 = .ok
          [displayNote (chordRootPitch root degree isMinor),
           displayNote (chordRootPitch root degree isMinor +
             (if isChordMinorAt isMinor degree then 3 else 4)),
           displayNote (chordRootPitch root degree isMinor + 7)]) := by
  decide

/-- C6 witness: root "C", Major mode, degree 2 — the minor-quality ii
chord D-minor rendered as D4, F4, A4. -/
theorem getChordNotes_diatonic_quality_witness :
    (chordRootMidi "C" 2 false).isOk = true ∧
    getChordNotes "C" 2 false 4 = .ok
      [displayNote (chordRootPitch "C" 2 false),
       displayNote (chordRootPitch "C" 2 false +
         (if isChordMinorAt false 2 then 3 else 4)),
       displayNote (chordRootPitch "C" 2 false + 7)] :=
  getChordNotes_diatonic_quality "C" (by decide) false 2 (by decide) (by decide)

/-- C9: the scale-degree lookup is total over all integer degrees and
7-periodic.  For every root in the pitch table, both modes and every
integer degree, the computed scale index lies in 0..6, the result is
unchanged when 7 is added to the degree, and the lookup succeeds. -/
theorem getScaleDegreeNote_total_and_periodic :
    ∀ root ∈ noteNames, ∀ (isMinor : Bool) (degree : Int),
      (0 ≤ degreeIndex degree ∧ degreeIndex degree < 7) ∧
      getScaleDegreeNote root degree isMinor =
        getScaleDegreeNote root (degree + 7) isMinor ∧
      (getScaleDegreeNote root degree isMinor).isOk = true := by
  intro root hroot isMinor degree
  refine ⟨degreeIndex_bounds degree, ?_, ?_⟩
  · simp only [getScaleDegreeNote, degreeIndex_add_seven]
  · have hs := lookup_isSome_of_mem_keys noteTable root hroot
    obtain ⟨v, hv⟩ := Option.isSome_iff_exists.mp hs
    have hv2 : NOTE_TO_MIDI root = some v := hv
    unfold getScaleDegreeNote
    rw [hv2]
    rfl

/-- C9 witness: root "C", Minor mode, the out-of-band degree -3 (the
robustness case the claim singles out). -/
theorem getScaleDegreeNote_total_and_periodic_witness :
    (0 ≤ degreeIndex (-3) ∧ degreeIndex (-3) < 7) ∧
    getScaleDegreeNote "C" (-3) true = getScaleDegreeNote "C" (-3 + 7) true ∧
    (getScaleDegreeNote "C" (-3) true).isOk = true :=
  getScaleDegreeNote_total_and_periodic "C" (by decide) true (-3)

/-- A successful `noteToMidi` at octave 4 returns a pitch-table value,
hence one between 60 and 71. -/
lemma noteToMidi_ok_bounds (name : String) (r : Int)
    (h : noteToMidi name 4 = .ok r) : 60 ≤ r ∧ r ≤ 71 := by
  unfold noteToMidi at h
  split at h
  · exact Except.noConfusion h
  next base hbase =>
    injection h with h'
    have hb := NOTE_TO_MIDI_bounds name base hbase
    omega

/-- Display octave of a pitch in the emitted range: 4 for 60..71, 5 for
72..78. -/
lemma display_octave_of_bounds (p : Int) (h1 : 60 ≤ p) (h2 : p ≤ 78) :
    p.fdiv 12 - 1 = 4 ∨ p.fdiv 12 - 1 = 5 := by
  rw [Int.fdiv_eq_ediv p (by omega)]
  omega

/-- Every note of a successfully built chord displays a pitch between 60
and 78, at display octave 4 or 5. -/
lemma getChordNotes_ok_pitches (root : String) (degree : Int)
    (isMinor : Bool) (chord : List String)
    (h : getChordNotes root degree isMinor 4 = .ok chord) :
    ∀ note ∈ chord, ∃ p : Int, 60 ≤ p ∧ p ≤ 78 ∧ note = displayNote p ∧
      (p.fdiv 12 - 1 = 4 ∨ p.fdiv 12 - 1 = 5) := by
  unfold getChordNotes at h
  split at h
  · exact Except.noConfusion h
  next chordRoot hname =>
    dsimp only at h
    split at h
    · exact Except.noConfusion h
    next rootMidi hmidi =>
      injection h with h'
      intro note hn
      rw [← h'] at hn
      obtain ⟨i, hi, hdisp⟩ := List.mem_map.mp hn
      have hibounds : 0 ≤ i ∧ i ≤ 7 := by
        cases hb : (if isMinor = true then ([1, 4, 5] : List Int).contains degree
            else ([2, 3, 6] : List Int).contains degree) <;>
          rw [hb] at hi <;> simp [MINOR_TRIAD, MAJOR_TRIAD] at hi <;> omega
      have hr := noteToMidi_ok_bounds chordRoot rootMidi hmidi
      refine ⟨rootMidi + i, by omega, by omega, hdisp.symm, ?_⟩
      exact display_octave_of_bounds _ (by omega) (by omega)

/-- Every chord in a successful `buildChords` result was produced by
`getChordNotes` at octave 4 on some degree. -/
lemma buildChords_ok_mem (root : String) (isMinor : Bool) :
    ∀ (ds : List Int) (chords : List (List String)),
      buildChords root isMinor ds = .ok chords →
      ∀ chord ∈ chords, ∃ d : Int, getChordNotes root d isMinor 4 = .ok chord := by
  intro ds
  induction ds with
  | nil =>
    intro chords h chord hc
    simp only [buildChords] at h
    injection h with h'
    rw [← h'] at hc
    exact absurd hc (List.not_mem_nil chord)
  | cons d rest ih =>
    intro chords h chord hc
    simp only [buildChords] at h
    split at h
    · exact Except.noConfusion h
    next c hc1 =>
      split at h
      · exact Except.noConfusion h
      next cs hcs =>
        injection h with h'
        rw [← h'] at hc
        rcases List.mem_cons.mp hc with rfl | hmem
        · exact ⟨d, hc1⟩
        · exact ih cs hcs chord hmem

/-- C10: output pitch bound invariant.  Whenever the engine entry point
succeeds, every note of every chord in the result is the display string
of an absolute pitch between 60 (C4) and 78 (F#5) inclusive — a valid
MIDI note number — and its displayed octave is 4 or 5.  (The chord-root
base values range over 60..71 and each triad interval adds at most 7
semitones.) -/
theorem createChordProgression_pitch_bounds (key : String) (n : Int)
    (chords : List (List String))
    (h : createChordProgression key n = .ok chords) :
    ∀ chord ∈ chords, ∀ note ∈ chord, ∃ p : Int,
      60 ≤ p ∧ p ≤ 78 ∧ note = displayNote p ∧
      (p.fdiv 12 - 1 = 4 ∨ p.fdiv 12 - 1 = 5) := by
  unfold createChordProgression at h
  split at h
  · exact Except.noConfusion h
  next root isMinor hp =>
    split at h
    · exact Except.noConfusion h
    · split at h
      · exact Except.noConfusion h
      · split at h
        · exact Except.noConfusion h
        next progression hdeg =>
          intro chord hc
          obtain ⟨d, hd⟩ := buildChords_ok_mem root isMinor progression chords h chord hc
          exact getChordNotes_ok_pitches root d isMinor chord hd

/-- C10 witness: the note "E4" of the first chord of the two-chord
progression for the bare key "C" (which contains no letter m and
therefore really parses as Major) displays an in-range pitch. -/
theorem createChordProgression_pitch_bounds_witness :
    ∃ p : Int, 60 ≤ p ∧ p ≤ 78 ∧ "E4" = displayNote p ∧
      (p.fdiv 12 - 1 = 4 ∨ p.fdiv 12 - 1 = 5) :=
  createChordProgression_pitch_bounds "C" 2
    [["C4", "E4", "G4"], ["G4", "B4", "D5"]] (by decide)
    ["C4", "E4", "G4"] (by decide) "E4" (by decide)
